import Mathlib

/-!
Verification development for the single-header C library `cprogress.h`
(discodyer/libcprogress).  The definitions below are a shallow embedding of
the library translated function by function from the source:

* C strings become `List Char` (the strings involved never contain interior
  NUL bytes; the terminating NUL is the end of the list);
* `size_t` values become `Nat`, with the sentinel `CPROGRESS_UNDEF`
  (`(size_t)(-1)`) represented by the explicit constant `UNDEF64` and
  wrap-around subtraction modelled by `sizetSub`;
* `float`/`double` percentages become `Rat` (the arithmetic performed on
  them is comparison, clamping to exact integers, and one product/quotient;
  all claim inputs are exactly representable);
* heap allocation is assumed to succeed (glibc `malloc`), and the bump
  allocator `cprogress_stralloc_t` is modelled by its length/size counters
  with an allocation returning the stored characters, or `none` for a NULL
  result;
* console output (`printf`, ANSI sequences) is external I/O; the state
  changes and event emissions performed by the library are modelled, and the
  bytes a rendering function stores into the caller-supplied buffer are
  returned as a `List Char`.

The recursive loops of `cprogress_create` are written with an explicit fuel
parameter so that all definitions are structurally recursive and kernel
computable; `cprogress_create` passes `fmt.length + 1` fuel, which is an
upper bound on the number of loop iterations because every iteration
consumes at least one character of the format string (running out of fuel
would return `CError.internal`, which is unreachable).
-/

/-- `CPROGRESS_UNDEF` cast to `size_t`: `(size_t)(-1) = 2^64 - 1`. -/
def UNDEF64 : Nat := 2 ^ 64 - 1

/-- `size_t` subtraction `a - b` with wrap-around modulo `2^64`
(in `cprogress_writeline`, `avail_length -= print_length` can wrap). -/
def sizetSub (a b : Nat) : Nat := if b ≤ a then a - b else 2 ^ 64 - (b - a)

/-- `cprogress_error_t`. -/
inductive CError
  | ok
  | inval
  | bufful
  | internal
deriving DecidableEq, Repr

/-- `cprogress_displaychunk_type_t`.  `unknown` (value 0) is the sentinel
that terminates the chunk array. -/
inductive ChunkType
  | unknown
  | literal
  | title
  | bar
  | percentage
deriving DecidableEq, Repr

/-- `cprogress_displaychunk_t`.  The C struct puts `fill_char` and
`literal` in a union; they are kept as separate fields here (`fill_char` is
only read for Bar chunks, `literal` only for Literal chunks).  `literal` is
`none` when the C pointer is NULL.  `span_width` is a `size_t` with
`CPROGRESS_UNDEF` as default, exactly as in the initializer
`{ .span_width = CPROGRESS_UNDEF }`.  The mutable `display_width` cache is
not stored: it is recomputed deterministically from the same inputs in
every render (see `measureChunkWidth`). -/
structure DisplayChunk where
  type : ChunkType := ChunkType.unknown
  fillChar : Char := Char.ofNat 0
  literal : Option (List Char) := none
  literalLength : Nat := 0
  isAutospan : Bool := false
  spanWidth : Nat := UNDEF64
deriving DecidableEq, Repr

/-- `CPROGRESS_DISPLAYCHUNK_MAXLEN`. -/
def CPROGRESS_DISPLAYCHUNK_MAXLEN : Nat := 16

/-- `cprogress_pushchunk`: fails (returns 1 in C, `none` here) when the
chunk array already holds `CPROGRESS_DISPLAYCHUNK_MAXLEN - 1` entries. -/
def pushChunk (chunks : List DisplayChunk) (dc : DisplayChunk) :
    Option (List DisplayChunk) :=
  if CPROGRESS_DISPLAYCHUNK_MAXLEN - 1 ≤ chunks.length then none
  else some (chunks ++ [dc])

/-- `cprogress_stralloc_t`: only the counters matter; the buffer content of
a successful allocation is the copied characters, returned directly by
`strallocAlloc`. -/
structure Stralloc where
  length : Nat
  size : Nat
deriving DecidableEq, Repr

/-- `cprogress_stralloc_alloc`: returns NULL (`none`) when
`length + len + 1 >= size`; otherwise stores `len` bytes of `str`
(`strncpy`; the source run contains no NUL) and advances `length` by
`len + 1`.  A NULL backing buffer cannot occur here because
`cprogress_create` checks the `malloc` result before parsing. -/
def strallocAlloc (sa : Stralloc) (str : List Char) (len : Nat) :
    Option (List Char) × Stralloc :=
  if sa.size ≤ sa.length + (len + 1) then (none, sa)
  else (some (str.take len), { sa with length := sa.length + (len + 1) })

/-- `cprogress_token_type_t`. -/
inductive TokenType
  | unknown
  | fmtbegin
  | markautospan
  | number
  | literalChar
deriving DecidableEq, Repr

/-- `cprogress_token_t`. -/
structure Token where
  type : TokenType := TokenType.unknown
  number : Nat := 0
  ch : Char := Char.ofNat 0
  readLength : Nat := 0
deriving DecidableEq, Repr

/-- `cprogress_isfmtbegin`. -/
def isfmtbegin (c : Char) : Bool := c = '$'

/-- `cprogress_ismarkautospan`. -/
def ismarkautospan (c : Char) : Bool := c = '='

/-- `cprogress_isnumber`: ASCII digit. -/
def isnumber (c : Char) : Bool := 48 ≤ c.toNat && c.toNat ≤ 57

/-- `cprogress_isliteral`: ASCII letter. -/
def isliteral (c : Char) : Bool :=
  (97 ≤ c.toNat && c.toNat ≤ 122) || (65 ≤ c.toNat && c.toNat ≤ 90)

/-- `cprogress_findchartokentype`. -/
def findchartokentype (c : Char) : TokenType :=
  if isfmtbegin c then TokenType.fmtbegin
  else if ismarkautospan c then TokenType.markautospan
  else if isnumber c then TokenType.number
  else if isliteral c then TokenType.literalChar
  else TokenType.unknown

/-- Digit accumulation of `cprogress_peektoken`'s number case:
`token.number = token.number * 10 + (*ch - 48)` over the digit run. -/
def digitsValue (run : List Char) : Nat :=
  run.foldl (fun a d => a * 10 + (d.toNat - 48)) 0

/-- `cprogress_peektoken`: the C loop accumulates a maximal run of
same-class characters into one token.  `fmtbegin`, `markautospan` and
`literalChar` tokens set `is_done` after one character (read length 1);
an `unknown` first character returns immediately with read length 0; a
digit run is consumed greedily, accumulating the decimal value. -/
def peektoken : List Char → Token
  | [] => {}
  | c :: rest =>
    match findchartokentype c with
    | TokenType.unknown => {}
    | TokenType.fmtbegin => { type := TokenType.fmtbegin, ch := c, readLength := 1 }
    | TokenType.markautospan => { type := TokenType.markautospan, ch := c, readLength := 1 }
    | TokenType.literalChar => { type := TokenType.literalChar, ch := c, readLength := 1 }
    | TokenType.number =>
      let run := (c :: rest).takeWhile (fun d => isnumber d)
      { type := TokenType.number, number := digitsValue run, readLength := run.length }

/-- The directive-parsing inner loop of `cprogress_create`
(`while (*chptr && !fmt_name)`).  Consumes tokens from `s` until a
`LITERAL_CHAR` token provides the conversion name, the string ends, or an
error occurs.  `MARKAUTOSPAN` sets `is_autospan` and fails with
`CPROGRESS_ERROR_INVAL` when `has_autospan_element` is already set (the C
code sets the flag on the chunk before the duplicate check; an error
discards the chunk, so the order is unobservable); `NUMBER` overwrites
`span_width`; any other token type fails with `CPROGRESS_ERROR_INVAL`.
Returns (conversion name if found, chunk, has-autospan flag, remaining
characters).  Each recursive call consumes `readLength ≥ 1` characters, so
`fuel ≥ s.length + 1` never runs out. -/
def parseTokens (fuel : Nat) (s : List Char) (dc : DisplayChunk) (hasAuto : Bool) :
    Except CError (Option Char × DisplayChunk × Bool × List Char) :=
  match fuel with
  | 0 => Except.error CError.internal
  | fuel + 1 =>
    match s with
    | [] => Except.ok (none, dc, hasAuto, [])
    | c :: rest =>
      let tok := peektoken (c :: rest)
      match tok.type with
      | TokenType.markautospan =>
        if hasAuto then Except.error CError.inval
        else parseTokens fuel ((c :: rest).drop tok.readLength)
          { dc with isAutospan := true } true
      | TokenType.number =>
        parseTokens fuel ((c :: rest).drop tok.readLength)
          { dc with spanWidth := tok.number } hasAuto
      | TokenType.literalChar => Except.ok (some tok.ch, dc, hasAuto, rest)
      | _ => Except.error CError.inval

/-- `cprogress_threadinfo_t`.  The `is_valid` sentinel is dropped: the list
holds exactly the valid entries (the sentinel-terminated `foreach` loops of
the source iterate over exactly these).  A fresh entry from
`cprogress_create` is `{ .is_valid = 1, .thread_index = i }`: everything
else zero. -/
structure ThreadInfo where
  threadIndex : Nat
  isRunning : Bool := false
  title : Option (List Char) := none
  percentage : Rat := 0
  isJustStopped : Bool := false
deriving DecidableEq, Repr

/-- `cprogress_t`.  On a creation error the C code returns a zeroed struct
with only `error` set, which is the default value here with the error
filled in. -/
structure CProgress where
  error : CError := CError.ok
  hasAutospanElement : Bool := false
  displaychunks : List DisplayChunk := []
  stralloc : Stralloc := { length := 0, size := 0 }
  isRunning : Bool := false
  lastAliveThreadCount : Nat := 0
  threadinfos : List ThreadInfo := []
deriving DecidableEq, Repr

/-- Flushing the pending literal run into a Literal chunk, as done both on
a new `$` directive (guard `if (literal && literal_length)`) and for the
trailing literal at the end of the scan (guard `if (literal_length)`); the
two guards agree because the saved literal pointer is non-NULL exactly when
the run is nonempty.  The run's characters are copied into the arena
(possibly getting a NULL pointer back, which is stored unchecked) and a
Literal chunk with `span_width = CPROGRESS_UNDEF` is pushed. -/
def flushLiteral (chunks : List DisplayChunk) (litRun : List Char) (sa : Stralloc) :
    Except CError (List DisplayChunk × Stralloc) :=
  if litRun.length ≠ 0 then
    let alloc := strallocAlloc sa litRun litRun.length
    match pushChunk chunks
      { type := ChunkType.literal, literal := alloc.1,
        literalLength := litRun.length } with
    | none => Except.error CError.bufful
    | some cs => Except.ok (cs, alloc.2)
  else Except.ok (chunks, sa)

/-- One `$`-directive step of the `cprogress_create` scan: flush any
pending literal run, run the token loop (`parseTokens`), perform the two
validation checks, and dispatch on the conversion name.  Returns the new
chunk list, autospan flag, arena state, the value of `last_ch` after the
step (`*chptr` after the `--chptr`/`++chptr` adjustments: the conversion
letter, or the fill character for a Bar), and the remaining characters.

Note the second validation check is kept exactly as in the source:
`displaychunk.type == CPROGRESS_DISPLAYCHUNK_BAR` is tested *before* the
`switch` that assigns `type`, so at this point `type` is still
`CPROGRESS_DISPLAYCHUNK_UNKNOWN` and the check can never fire. -/
def stepDirective (fuel : Nat) (rest : List Char) (litRun : List Char)
    (chunks : List DisplayChunk) (hasAuto : Bool) (sa : Stralloc) :
    Except CError (List DisplayChunk × Bool × Stralloc × Char × List Char) :=
  match flushLiteral chunks litRun sa with
  | Except.error e => Except.error e
  | Except.ok (chunks1, sa1) =>
    match parseTokens fuel rest {} hasAuto with
    | Except.error e => Except.error e
    | Except.ok (fmtName, dc, hasAuto1, remaining) =>
      -- format should either be spanned or at fixed length
      if dc.spanWidth ≠ UNDEF64 ∧ dc.isAutospan then Except.error CError.inval
      -- progress bar must have a specific length (dead check, see above)
      else if dc.type = ChunkType.bar ∧ dc.spanWidth = UNDEF64 ∧
          dc.isAutospan = false then Except.error CError.inval
      else
        match fmtName with
        | some ch =>
          if ch = 't' then
            match pushChunk chunks1 { dc with type := ChunkType.title } with
            | none => Except.error CError.bufful
            | some cs => Except.ok (cs, hasAuto1, sa1, ch, remaining)
          else if ch = 'b' then
            -- `$[number]b[char]`: the next character is the fill char
            match remaining with
            | [] => Except.error CError.inval
            | fill :: rest2 =>
              match pushChunk chunks1
                { dc with type := ChunkType.bar, fillChar := fill } with
              | none => Except.error CError.bufful
              | some cs => Except.ok (cs, hasAuto1, sa1, fill, rest2)
          else if ch = 'p' then
            match pushChunk chunks1 { dc with type := ChunkType.percentage } with
            | none => Except.error CError.bufful
            | some cs => Except.ok (cs, hasAuto1, sa1, ch, remaining)
          else Except.error CError.inval
        | none => Except.error CError.inval

/-- The main scan loop of `cprogress_create` over the format string.  A
character starts a directive when it is `$` and the previous character was
not `$`; otherwise it joins the current literal run.  At the end of the
string the trailing literal run is flushed.  Each iteration consumes at
least one character, so `fuel ≥ s.length + 1` never runs out. -/
def createLoop (fuel : Nat) (s : List Char) (lastCh : Char) (litRun : List Char)
    (chunks : List DisplayChunk) (hasAuto : Bool) (sa : Stralloc) :
    Except CError (List DisplayChunk × Bool × Stralloc) :=
  match fuel with
  | 0 => Except.error CError.internal
  | fuel + 1 =>
    match s with
    | [] =>
      -- deal with trailing literal (C: `if (literal_length)`)
      match flushLiteral chunks litRun sa with
      | Except.error e => Except.error e
      | Except.ok (cs, sa1) => Except.ok (cs, hasAuto, sa1)
    | c :: rest =>
      if isfmtbegin c && !(isfmtbegin lastCh) then
        match stepDirective fuel rest litRun chunks hasAuto sa with
        | Except.error e => Except.error e
        | Except.ok (chunks2, hasAuto2, sa2, lastCh2, remaining) =>
          createLoop fuel remaining lastCh2 [] chunks2 hasAuto2 sa2
      else
        createLoop fuel rest c (litRun ++ [c]) chunks hasAuto sa

/-- `cprogress_create`.  Allocations are assumed to succeed (glibc), so the
`CPROGRESS_ERROR_INTERNAL` branch for failed `malloc` is not taken; the
string arena is created with `size = strlen(fmt)`.  The final sentinel
chunk push is modelled by its capacity effect only (the sentinel itself is
not kept in the chunk list, mirroring the `foreach` iteration that stops at
it). -/
def cprogress_create (fmt : List Char) (threadCount : Nat) : CProgress :=
  let threads := (List.range threadCount).map fun i => ({ threadIndex := i } : ThreadInfo)
  match createLoop (fmt.length + 1) fmt (Char.ofNat 0) [] [] false
      { length := 0, size := fmt.length } with
  | Except.error e => { error := e }
  | Except.ok (chunks, hasAuto, sa) =>
    if CPROGRESS_DISPLAYCHUNK_MAXLEN - 1 ≤ chunks.length then
      { error := CError.bufful }
    else
      { error := CError.ok, hasAutospanElement := hasAuto,
        displaychunks := chunks, stralloc := sa, isRunning := true,
        lastAliveThreadCount := 0, threadinfos := threads }

/-- Characters of a string literal. -/
def chars (s : String) : List Char := s.data

/-- `cprogress_threadinfo_start`: frees and clears the title, resets the
percentage, sets `is_running`.  It does not touch `is_just_stopped`. -/
def cprogress_threadinfo_start (t : ThreadInfo) : ThreadInfo :=
  { t with title := none, percentage := 0, isRunning := true }

/-- `cprogress_threadinfo_abort`: stops the task and raises the transient
`is_just_stopped` flag; the title is deliberately kept for the next
render. -/
def cprogress_threadinfo_abort (t : ThreadInfo) : ThreadInfo :=
  { t with isRunning := false, isJustStopped := true }

/-- `cprogress_threadinfo_updatetitle`: no-op unless running; replaces the
owned title (the old one is freed, the new one duplicated). -/
def cprogress_threadinfo_updatetitle (t : ThreadInfo) (title : Option (List Char)) :
    ThreadInfo :=
  if !t.isRunning then t else { t with title := title }

/-- `cprogress_threadinfo_updatepercentage`: no-op unless running; a value
`>= 100` is replaced by 100 and triggers the abort transition; a negative
value is replaced by 0; the result is stored. -/
def cprogress_threadinfo_updatepercentage (t : ThreadInfo) (p : Rat) : ThreadInfo :=
  if !t.isRunning then t
  else
    let t1 := if 100 ≤ p then cprogress_threadinfo_abort t else t
    let p1 := if 100 ≤ p then (100 : Rat) else p
    let p2 := if p1 < 0 then (0 : Rat) else p1
    { t1 with percentage := p2 }

/-- `cprogress_event_type_t` (the real events; `CPROGRESS_EVENT_NONE` is a
placeholder never emitted). -/
inductive EventType
  | threadStart
  | threadFinish
  | finish
deriving DecidableEq, Repr

/-- An observable event emission: `cprogress_emitevent(cp, type, idx)`.
`thread_index == CPROGRESS_UNDEF` (session-wide) is `none`.  For each of
the three real event types the guard `type != CPROGRESS_EVENT_NONE &&
type < CPROGRESS_EVENT_LENGTH` in `cprogress_emitevent` holds, so the
subscriber for that type — when one is registered — is invoked; we record
the invocations. -/
abbrev CEvent := EventType × Option Nat

/-- `cprogress_abort` (session level): forces the session not-running. -/
def cprogress_abort (cp : CProgress) : CProgress :=
  { cp with isRunning := false }

/-- `cprogress_stillrunning`: scans the task list; when every task is
simultaneously not-running and not-just-stopped the session is aborted.
Then — on every call on which the session is not running — a `Finish`
event is emitted.  Returns (return value, new state, events emitted by
this call). -/
def cprogress_stillrunning (cp : CProgress) : Bool × CProgress × List CEvent :=
  let isAllFinished := cp.threadinfos.all fun t => !t.isRunning && !t.isJustStopped
  let cp1 := if isAllFinished then cprogress_abort cp else cp
  let events : List CEvent :=
    if !cp1.isRunning then [(EventType.finish, none)] else []
  (cp1.isRunning, cp1, events)

/-- One task step of the first `foreach` in `cprogress_render`: a
just-stopped task has its final line rendered (console I/O), the transient
flag cleared, and a `ThreadFinish` event emitted. -/
def renderStep (acc : List ThreadInfo × List CEvent) (t : ThreadInfo) :
    List ThreadInfo × List CEvent :=
  if t.isJustStopped then
    (acc.1 ++ [{ t with isJustStopped := false }],
     acc.2 ++ [(EventType.threadFinish, some t.threadIndex)])
  else (acc.1 ++ [t], acc.2)

/-- `cprogress_render`: counts the running tasks, moves the cursor up by the
previous alive count (console I/O, not modelled), renders each just-stopped
task once (clearing the flag and emitting `ThreadFinish`), renders each
running task (console I/O only, no state change), and records the new alive
count.  Returns (new state, events emitted). -/
def cprogress_render (cp : CProgress) : CProgress × List CEvent :=
  let aliveThreadCount := cp.threadinfos.countP fun t => t.isRunning
  let stepped := cp.threadinfos.foldl renderStep ([], [])
  ({ cp with threadinfos := stepped.1, lastAliveThreadCount := aliveThreadCount },
   stepped.2)

/-- `cprogress_charlen`: 0 at end of string, otherwise 1 (the `TODO utf8`
comment in the source; every stored character is one byte). -/
def charlen (s : List Char) : Nat :=
  match s with
  | [] => 0
  | _ :: _ => 1

/-- `cprogress_measurechar`: `len <= 1 ? len : 2`; with `charlen` always 0
or 1 this equals `charlen`. -/
def measurechar (s : List Char) : Nat :=
  let len := charlen s
  if len ≤ 1 then len else 2

/-- The `while (*str)` loop of `cprogress_measuredisplaychunk`: in each
iteration the cursor is advanced by `charlen` *first* and only then is
`cprogress_measurechar` applied — to the character *after* the advance.
So for a string of length `n ≥ 1` this loop yields `n - 1`, not `n`. -/
def measureWidthLoop : List Char → Nat
  | [] => 0
  | _ :: rest => measurechar rest + measureWidthLoop rest

/-- `cprogress_measuredisplaychunk`.  `autospanWidth` is the value returned
when no fixed width applies, the chunk is not a Literal and `str` is NULL;
both `cprogress_writeline` call sites pass `CPROGRESS_UNDEF` there. -/
def measuredisplaychunk (dc : DisplayChunk) (str : Option (List Char))
    (autospanWidth : Nat) : Nat :=
  if dc.spanWidth ≠ UNDEF64 then dc.spanWidth
  else if dc.type = ChunkType.literal then dc.literalLength
  else
    match str with
    | some s => measureWidthLoop s
    | none => autospanWidth

/-- The copy loop of `cprogress_snprintw`.  `written` counts bytes written
so far; since every character here has `charlen = measurechar = 1`,
`written_length` and `display_width` advance in lockstep and a single
counter is enough.  The loop stops when the next byte would exceed
`buf_len`, or — when `alloc_width` is not `CPROGRESS_UNDEF` — when the next
column would exceed `alloc_width`. -/
def snprintwCopyLoop : List Char → Nat → Nat → Nat → List Char
  | [], _, _, _ => []
  | c :: rest, written, bufLen, allocWidth =>
    if bufLen < written + 1 then []
    else if allocWidth ≠ UNDEF64 ∧ allocWidth < written + 1 then []
    else c :: snprintwCopyLoop rest (written + 1) bufLen allocWidth

/-- `cprogress_snprintw`: copy characters while both the buffer capacity
and the allocated width allow, then pad with spaces while
`written_length < buf_len && display_width < alloc_width` (the padding
loop runs only when `alloc_width != CPROGRESS_UNDEF`, and the two counters
stay equal, so it pads `min (buf_len - w) (alloc_width - w)` spaces). -/
def cprogress_snprintw (bufLen : Nat) (lit : List Char) (allocWidth : Nat) :
    List Char :=
  let copied := snprintwCopyLoop lit 0 bufLen allocWidth
  let w := copied.length
  let padCount :=
    if allocWidth ≠ UNDEF64 ∧ w < allocWidth then
      min (bufLen - w) (allocWidth - w)
    else 0
  copied ++ List.replicate padCount ' '

/-- `cprogress_writeliteral`: with no width and no source nothing is drawn;
with a NULL source the allocated width is pure padding (bounded by the
buffer capacity); otherwise defers to `cprogress_snprintw`. -/
def cprogress_writeliteral (bufLen : Nat) (lit : Option (List Char))
    (allocWidth : Nat) : List Char :=
  if allocWidth = UNDEF64 ∧ lit = none then []
  else
    match lit with
    | none => List.replicate (min bufLen allocWidth) ' '
    | some l => cprogress_snprintw bufLen l allocWidth

/-- Decimal digits of `n` zero-padded to two places, used for the fraction
part of `%.2f`. -/
def twoDigits (n : Nat) : List Char :=
  if n < 10 then '0' :: (Nat.repr n).data else (Nat.repr n).data

/-- The full text `printf`-style `%.2f` rendering of a nonnegative
rational: integer part, `.`, two fraction digits.  The hundredths count is
`⌊p * 100 + 1/2⌋` — rounding to the nearest hundredth, half away from
zero; the C library rounds the binary double to nearest-even, which agrees
on every value whose hundredths are exact, in particular on every input
appearing in the claims.  The floor is written as integer division on the
reduced fraction so that it is kernel computable (see
`format2f_cents_eq_floor` for the identity). -/
def format2fOfNonneg (p : Rat) : List Char :=
  let cents := ((200 * p.num + (p.den : Int)) / (2 * (p.den : Int))).toNat
  (Nat.repr (cents / 100)).data ++ '.' :: twoDigits (cents % 100)

/-- Sign handling of `%.2f`: a negative value is the formatted absolute
value prefixed with a minus sign. -/
def format2f (p : Rat) : List Char :=
  if p < 0 then '-' :: format2fOfNonneg (-p) else format2fOfNonneg p

/-- `cprogress_sprintpercentage`: `snprintf(buf, 6, "%.2f", percentage)` —
`snprintf` with size 6 stores at most 5 characters plus the NUL, so the
formatted text is truncated to its first 5 characters. -/
def cprogress_sprintpercentage (p : Rat) : List Char :=
  (format2f p).take 5

/-- `cprogress_writepercentage`: formats into a 7-byte zeroed buffer with
size 6 and writes the resulting string as a literal. -/
def cprogress_writepercentage (bufLen : Nat) (p : Rat) (allocWidth : Nat) :
    List Char :=
  cprogress_writeliteral bufLen (some (cprogress_sprintpercentage p)) allocWidth

/-- `cprogress_writeprogressbar`: fills
`(int)(buf_len * (percentage / 100.0))` characters with the fill character
and the rest of the `buf_len`-byte region with spaces — `buf_len` here is
whatever length the caller hands in, and the function always writes that
entire region (it returns `buf_len`).  The double-to-int conversion
truncates toward zero; composed with the `curr < left_length` loop (zero
iterations for a negative bound) this equals `⌊buf_len * (percentage / 100)⌋`
clamped at zero, for every output; the floor is written here as integer
division on the reduced fraction so that it is kernel computable (see
`writeprogressbar_fill_eq_floor` for the identity). -/
def cprogress_writeprogressbar (bufLen : Nat) (fillChar : Char) (percentage : Rat) :
    List Char :=
  let left := (((bufLen : Int) * percentage.num) / (100 * (percentage.den : Int))).toNat
  List.replicate left fillChar ++ List.replicate (bufLen - left) ' '

/-- The measure pass of `cprogress_writeline` for one chunk: which string
argument `cprogress_measuredisplaychunk` receives depends on the chunk
type (the Literal case passes the chunk's own text, Title the current
title, Bar NULL, Percentage the pre-formatted percentage string); all four
call sites pass `CPROGRESS_UNDEF` as `autospan_width`.  The sentinel
(`unknown`) chunk type is not measured by the loop. -/
def measureChunkWidth (dc : DisplayChunk) (title : Option (List Char))
    (pctString : List Char) : Nat :=
  match dc.type with
  | ChunkType.literal => measuredisplaychunk dc dc.literal UNDEF64
  | ChunkType.title => measuredisplaychunk dc title UNDEF64
  | ChunkType.bar => measuredisplaychunk dc none UNDEF64
  | ChunkType.percentage => measuredisplaychunk dc (some pctString) UNDEF64
  | ChunkType.unknown => 0

/-- The write pass of `cprogress_writeline`: walks the chunks in order,
stopping when `avail_length` is 0 (`avail_length <= 0` on a `size_t` is an
equality test).  Each chunk's resolved width is the autospan width for the
autospan chunk, else its measured width (the C code reads the
`display_width` cache filled by the measure pass; `measureChunkWidth` is
deterministic in the same inputs).  Literal, Title and Percentage chunks
write through `cprogress_writeliteral` with the remaining capacity —
but a Bar chunk passes `display_width` itself as the buffer length of
`cprogress_writeprogressbar`, *not* the remaining capacity, and the
returned `print_length` for a Bar is that same `display_width`.  The
cursor advances and `avail_length` shrinks (with `size_t` wrap-around) by
`print_length`.  The returned list is the concatenation of the byte
regions the pass stores, in order. -/
def writePass (chunks : List DisplayChunk) (avail : Nat) (autospanWidth : Nat)
    (title : Option (List Char)) (pctString : List Char) (percentage : Rat) :
    List Char :=
  match chunks with
  | [] => []
  | dc :: rest =>
    if avail = 0 then []
    else
      let dw := if dc.isAutospan then autospanWidth
        else measureChunkWidth dc title pctString
      let written : List Char :=
        match dc.type with
        | ChunkType.literal => cprogress_writeliteral avail dc.literal dw
        | ChunkType.title => cprogress_writeliteral avail title dw
        | ChunkType.bar => cprogress_writeprogressbar dw dc.fillChar percentage
        | ChunkType.percentage => cprogress_writeliteral avail pctString dw
        | ChunkType.unknown => []
      let printLength : Nat :=
        match dc.type with
        | ChunkType.bar => dw
        | _ => written.length
      written ++ writePass rest (sizetSub avail printLength) autospanWidth title
        pctString percentage

/-- `cprogress_writeline`: nothing is written for a NULL buffer or a
console width of at most one column.  Otherwise the percentage string is
formatted once, the measure pass sums the widths of all non-autospan chunks
(a `size_t` sum), the autospan width is the saturating difference
`console_width - taken`, and the write pass stores the line into the
buffer.  The result is the list of bytes stored into `buf`. -/
def cprogress_writeline (cp : CProgress) (bufLen : Nat) (consoleWidth : Nat)
    (title : Option (List Char)) (percentage : Rat) : List Char :=
  if consoleWidth ≤ 1 then []
  else
    let pctString := cprogress_sprintpercentage percentage
    let taken :=
      (((cp.displaychunks.filter fun dc => !dc.isAutospan).map
        fun dc => measureChunkWidth dc title pctString).sum) % 2 ^ 64
    let autospanWidth := if taken < consoleWidth then consoleWidth - taken else 0
    writePass cp.displaychunks bufLen autospanWidth title pctString percentage

/-- Number of chunks in a compiled format that carry the auto-span flag. -/
def autospanCount (chunks : List DisplayChunk) : Nat :=
  chunks.countP fun dc => dc.isAutospan

/-- A live session whose task list is exactly `ts` (the state of a
successfully created instance after its tasks have evolved to `ts`). -/
def sessionWith (ts : List ThreadInfo) : CProgress :=
  { error := CError.ok, isRunning := true, threadinfos := ts }

/-- A running task in its initial running state (as after
`cprogress_threadinfo_start` on a fresh slot): used to instantiate the
universally quantified claim theorems. -/
def t0spec : ThreadInfo :=
  { threadIndex := 0, isRunning := true }

/-- Fidelity of the hundredths computation in `format2fOfNonneg`: the
integer division on the reduced fraction is exactly
`⌊p * 100 + 1 / 2⌋`. -/
theorem format2f_cents_eq_floor (p : Rat) :
    (200 * p.num + (p.den : Int)) / (2 * (p.den : Int)) = ⌊p * 100 + 1 / 2⌋ := by
  have hd0 : (p.den : ℚ) ≠ 0 := by
    exact_mod_cast p.den_pos.ne'
  have hnum : (p.num : ℚ) = p * (p.den : ℚ) := (div_eq_iff hd0).mp (Rat.num_div_den p)
  have h1 : p * 100 + 1 / 2
      = ((200 * p.num + (p.den : Int) : Int) : ℚ) / (((2 * p.den : ℕ) : ℕ) : ℚ) := by
    push_cast [hnum]
    field_simp
    rw [hnum]
    ring
  rw [h1, Rat.floor_intCast_div_natCast]
  push_cast
  ring_nf

/-- Fidelity of the fill computation in `cprogress_writeprogressbar`: the
integer division on the reduced fraction is exactly
`⌊buf_len * (percentage / 100)⌋`. -/
theorem writeprogressbar_fill_eq_floor (bufLen : Nat) (p : Rat) :
    ((bufLen : Int) * p.num) / (100 * (p.den : Int))
      = ⌊(bufLen : Rat) * (p / 100)⌋ := by
  have hd0 : (p.den : ℚ) ≠ 0 := by
    exact_mod_cast p.den_pos.ne'
  have hnum : (p.num : ℚ) = p * (p.den : ℚ) := (div_eq_iff hd0).mp (Rat.num_div_den p)
  have h1 : (bufLen : Rat) * (p / 100)
      = (((bufLen : Int) * p.num : Int) : ℚ) / (((100 * p.den : ℕ) : ℕ) : ℚ) := by
    push_cast [hnum]
    field_simp
    rw [hnum]
    ring
  rw [h1, Rat.floor_intCast_div_natCast]
  push_cast
  ring_nf

theorem pushChunk_eq_some {chunks : List DisplayChunk} {dc : DisplayChunk}
    {cs : List DisplayChunk} (h : pushChunk chunks dc = some cs) :
    cs = chunks ++ [dc] := by
  unfold pushChunk at h
  split at h
  · exact absurd h (by simp)
  · exact (Option.some.inj h).symm

theorem autospanCount_append (cs : List DisplayChunk) (dc : DisplayChunk) :
    autospanCount (cs ++ [dc])
      = autospanCount cs + (if dc.isAutospan then 1 else 0) := by
  simp [autospanCount, List.countP_append, List.countP_cons]

/-- Through the directive token loop, either the chunk's autospan flag and
the global flag are unchanged, or the global flag was clear, got set, and
the chunk is the (single) newly marked one. -/
theorem parseTokens_auto (fuel : Nat) (s : List Char) (dc : DisplayChunk)
    (hasAuto : Bool) {name : Option Char} {dc2 : DisplayChunk} {h2 : Bool}
    {rem : List Char}
    (h : parseTokens fuel s dc hasAuto = Except.ok (name, dc2, h2, rem)) :
    (dc2.isAutospan = dc.isAutospan ∧ h2 = hasAuto) ∨
    (hasAuto = false ∧ dc2.isAutospan = true ∧ h2 = true) := by
  induction fuel generalizing s dc hasAuto name dc2 h2 rem with
  | zero => simp [parseTokens] at h
  | succ fuel ih =>
    cases s with
    | nil =>
      simp only [parseTokens, Except.ok.injEq, Prod.mk.injEq] at h
      obtain ⟨hn, hd, hh, hr⟩ := h
      subst hd
      subst hh
      exact Or.inl ⟨rfl, rfl⟩
    | cons c rest =>
      simp only [parseTokens] at h
      split at h
      · -- markautospan
        split at h
        · exact absurd h (by simp)
        · rcases ih _ _ _ h with h5 | h5
          · exact Or.inr ⟨by simp_all, by simp_all, h5.2⟩
          · exact absurd h5.1 (by simp)
      · -- number
        rcases ih _ _ _ h with h5 | h5
        · exact Or.inl ⟨h5.1, h5.2⟩
        · exact Or.inr h5
      · -- literalChar
        simp only [Except.ok.injEq, Prod.mk.injEq] at h
        obtain ⟨hn, hd, hh, hr⟩ := h
        subst hd
        subst hh
        exact Or.inl ⟨rfl, rfl⟩
      · exact absurd h (by simp)

/-- The flushed Literal chunk never carries the autospan flag, so the
autospan count of the chunk list is unchanged by a flush. -/
theorem flushLiteral_auto (chunks : List DisplayChunk) (litRun : List Char)
    (sa : Stralloc) {cs : List DisplayChunk} {sa1 : Stralloc}
    (h : flushLiteral chunks litRun sa = Except.ok (cs, sa1)) :
    autospanCount cs = autospanCount chunks := by
  simp only [flushLiteral] at h
  split at h
  · split at h
    · exact absurd h (by simp)
    · next hpush =>
      simp only [Except.ok.injEq, Prod.mk.injEq] at h
      rw [h.1.symm, pushChunk_eq_some hpush, autospanCount_append]
      simp
  · simp only [Except.ok.injEq, Prod.mk.injEq] at h
    rw [h.1.symm]

/-- Through one directive step the at-most-one-autospan invariant is
preserved: the bound on the autospan count tracks the
`has_autospan_element` flag. -/
theorem stepDirective_auto (fuel : Nat) (rest litRun : List Char)
    (chunks : List DisplayChunk) (hasAuto : Bool) (sa : Stralloc)
    {chunks2 : List DisplayChunk} {h2 : Bool} {sa2 : Stralloc} {lc : Char}
    {rem : List Char}
    (h : stepDirective fuel rest litRun chunks hasAuto sa
      = Except.ok (chunks2, h2, sa2, lc, rem))
    (inv : autospanCount chunks ≤ if hasAuto then 1 else 0) :
    autospanCount chunks2 ≤ if h2 then 1 else 0 := by
  unfold stepDirective at h
  split at h
  · exact absurd h (by simp)
  · next chunks1 sa1 hflush =>
    have hc1 : autospanCount chunks1 = autospanCount chunks :=
      flushLiteral_auto _ _ _ hflush
    split at h
    · exact absurd h (by simp)
    · next fmtName dc hasAuto1 remaining hparse =>
      have hauto := parseTokens_auto _ _ _ _ hparse
      have hdc : autospanCount (chunks1 ++ [dc]) ≤ if hasAuto1 then 1 else 0 := by
        rw [autospanCount_append, hc1]
        rcases hauto with ⟨ha, hb⟩ | ⟨ha, hb, hc⟩
        · rw [hb]
          have : ({} : DisplayChunk).isAutospan = false := rfl
          rw [ha, this]
          simpa using inv
        · rw [ha] at inv
          rw [hb, hc]
          simpa using inv
      split at h
      · exact absurd h (by simp)
      · split at h
        · exact absurd h (by simp)
        · split at h
          · next ch =>
            split at h
            · -- conversion letter t
              split at h
              · exact absurd h (by simp)
              · next cs hpush =>
                simp only [Except.ok.injEq, Prod.mk.injEq] at h
                obtain ⟨hcs, hh, -⟩ := h
                rw [← hcs, ← hh, pushChunk_eq_some hpush]
                simpa [autospanCount_append] using hdc
            · split at h
              · -- conversion letter b
                split at h
                · exact absurd h (by simp)
                · split at h
                  · exact absurd h (by simp)
                  · next cs hpush =>
                    simp only [Except.ok.injEq, Prod.mk.injEq] at h
                    obtain ⟨hcs, hh, -⟩ := h
                    rw [← hcs, ← hh, pushChunk_eq_some hpush]
                    simpa [autospanCount_append] using hdc
              · split at h
                · -- conversion letter p
                  split at h
                  · exact absurd h (by simp)
                  · next cs hpush =>
                    simp only [Except.ok.injEq, Prod.mk.injEq] at h
                    obtain ⟨hcs, hh, -⟩ := h
                    rw [← hcs, ← hh, pushChunk_eq_some hpush]
                    simpa [autospanCount_append] using hdc
                · exact absurd h (by simp)
          · exact absurd h (by simp)

/-- The at-most-one-autospan invariant holds through the whole format scan:
a successful `createLoop` keeps the autospan count bounded by the
`has_autospan_element` flag. -/
theorem createLoop_auto (fuel : Nat) :
    ∀ (s : List Char) (lastCh : Char) (litRun : List Char)
      (chunks : List DisplayChunk) (hasAuto : Bool) (sa : Stralloc)
      {res : List DisplayChunk × Bool × Stralloc},
      createLoop fuel s lastCh litRun chunks hasAuto sa = Except.ok res →
      autospanCount chunks ≤ (if hasAuto then 1 else 0) →
      autospanCount res.1 ≤ if res.2.1 then 1 else 0 := by
  induction fuel with
  | zero =>
    intro s lastCh litRun chunks hasAuto sa res h inv
    simp [createLoop] at h
  | succ fuel ih =>
    intro s lastCh litRun chunks hasAuto sa res h inv
    cases s with
    | nil =>
      simp only [createLoop] at h
      split at h
      · exact absurd h (by simp)
      · next cs sa1 hflush =>
        simp only [Except.ok.injEq] at h
        rw [← h]
        simpa [flushLiteral_auto _ _ _ hflush] using inv
    | cons c rest =>
      simp only [createLoop] at h
      split at h
      · -- a directive begins
        split at h
        · exact absurd h (by simp)
        · next chunks2 hasAuto2 sa2 lastCh2 remaining hstep =>
          exact ih _ _ _ _ _ _ h (stepDirective_auto _ _ _ _ _ _ hstep inv)
      · -- literal character
        exact ih _ _ _ _ _ _ h inv

/-- The measuring loop of `cprogress_measuredisplaychunk` computes one less
than the length of a nonempty string (it advances the cursor before
measuring, so the first character is never counted and the terminator
contributes zero). -/
theorem measureWidthLoop_eq (s : List Char) :
    measureWidthLoop s = s.length - 1 := by
  induction s with
  | nil => rfl
  | cons c rest ih =>
    cases rest with
    | nil => rfl
    | cons d rest2 =>
      have h1 : measureWidthLoop (c :: d :: rest2)
          = measurechar (d :: rest2) + measureWidthLoop (d :: rest2) := rfl
      rw [h1, ih]
      simp [measurechar, charlen]
      omega

/-- C1: refuted on the code.  The format `"$40b#"` compiles successfully,
yet rendering it into a buffer of capacity 10 (console width 70,
percentage 100) stores 40 bytes: in the write pass of
`cprogress_writeline` the Bar chunk's `cprogress_writeprogressbar` is
handed the resolved `display_width` (40) as its buffer length instead of
the remaining capacity `avail_length`, and that primitive always writes
its whole region — so the write runs 30 bytes past the supplied buffer
instead of truncating. -/
theorem C1_bar_write_overruns_buffer :
    (cprogress_create (chars "$40b#") 1).error = CError.ok ∧
    (cprogress_writeline (cprogress_create (chars "$40b#") 1) 10 70 none
      100).length = 40 ∧
    10 < (cprogress_writeline (cprogress_create (chars "$40b#") 1) 10 70 none
      100).length := by
  refine ⟨by decide, by decide, by decide⟩

/-- C2: refuted on the code.  The check `progress bar must has a specific
length` in `cprogress_create` reads `displaychunk.type` *before* the
`switch` that assigns it, so for `"$b#"` the type is still
`CPROGRESS_DISPLAYCHUNK_UNKNOWN` when the check runs, the check never
fires, and compilation succeeds — producing a Bar chunk with
`span_width = CPROGRESS_UNDEF` and no auto-span flag instead of failing
with `CPROGRESS_ERROR_INVAL`. -/
theorem C2_bar_without_width_accepted :
    (cprogress_create (chars "$b#") 1).error = CError.ok ∧
    (cprogress_create (chars "$b#") 1).displaychunks =
      [{ type := ChunkType.bar, fillChar := '#', literal := none,
         literalLength := 0, isAutospan := false, spanWidth := UNDEF64 }] := by
  refine ⟨by decide, by decide⟩

/-- C6: refuted on the code.  A Title chunk without fixed width measures
`length - 1`, not `length`: the measuring loop of
`cprogress_measuredisplaychunk` advances the string cursor *before*
applying `cprogress_measurechar`, so the first character is skipped and
the NUL terminator measures 0 (see `measureWidthLoop_eq`).  The
11-character title `"Simple task"` measures 10.  And when the title is
unset (NULL), the function returns its `autospan_width` argument — which
is `CPROGRESS_UNDEF = 2^64 - 1` at both call sites in
`cprogress_writeline` — not 0. -/
theorem C6_title_measure_off_by_one :
    measuredisplaychunk { type := ChunkType.title }
      (some (chars "Simple task")) UNDEF64 = 10 ∧
    (chars "Simple task").length = 11 ∧
    measuredisplaychunk { type := ChunkType.title } none UNDEF64 = UNDEF64 ∧
    UNDEF64 ≠ 0 := by
  refine ⟨by decide, by decide, by decide, by decide⟩

/-- C7: refuted on the code.  `cprogress_sprintpercentage` is
`snprintf(buf, 6, "%.2f", percentage)`: the size argument 6 allows at most
5 characters plus the NUL (although the buffer is `char[7]`), so while
31.0 formats as `"31.00"`, the 6-character rendering `"100.00"` of 100 is
truncated to `"100.0"` — one decimal place, not the claimed fixed two. -/
theorem C7_percentage_format_truncated_at_100 :
    cprogress_sprintpercentage 31 = chars "31.00" ∧
    cprogress_sprintpercentage 100 = chars "100.0" ∧
    cprogress_sprintpercentage 100 ≠ chars "100.00" := by
  refine ⟨by decide, by decide, by decide⟩

/-- C8: refuted on the code (percentage half).  Compiling
`"$=t [$40b#] $p%"` and rendering one line at console width 70 with title
`"Simple task"` and percentage 31 does produce a Bar segment of exactly
`floor(40 * 31 / 100) = 12` fill characters followed by 28 spaces — but
the Percentage segment renders `"31.0"`, not `"31.00"`: the measure pass
measures the 5-character string `"31.00"` with the off-by-one loop of
`cprogress_measuredisplaychunk` (width 4), and the write pass then
truncates the text to that width.  The buffer capacity 281 is what
`cprogress_printline` allocates for width 70 (`width * 4 + 1`). -/
theorem C8_roundtrip_bar_ok_percentage_truncated :
    (cprogress_create (chars "$=t [$40b#] $p%") 1).error = CError.ok ∧
    cprogress_writeline (cprogress_create (chars "$=t [$40b#] $p%") 1) 281 70
      (some (chars "Simple task")) 31
    = chars "Simple task" ++ List.replicate 10 ' ' ++ chars " [" ++
      List.replicate 12 '#' ++ List.replicate 28 ' ' ++ chars "] " ++
      chars "31.0" ++ chars "%" := by
  refine ⟨by decide, by decide⟩

/-- C9: refuted on the code.  The string arena is created with
`size = strlen(fmt)`, but storing a literal run of length `len` needs
`len + 1` arena bytes, so for a format that is a single literal run the
allocation in `cprogress_stralloc_alloc` fails (`length + len + 1 >= size`)
and returns NULL.  `cprogress_create` stores the NULL pointer unchecked and
still reports success, and `cprogress_writeliteral` renders a NULL literal
as pure padding — so the all-literal format `"abc"` renders as three
spaces, not as the text `"abc"`. -/
theorem C9_all_literal_format_renders_spaces :
    (cprogress_create (chars "abc") 1).error = CError.ok ∧
    (cprogress_create (chars "abc") 1).displaychunks =
      [{ type := ChunkType.literal, literal := none, literalLength := 3 }] ∧
    cprogress_writeline (cprogress_create (chars "abc") 1) 281 70 none 0
      = chars "   " ∧
    chars "   " ≠ chars "abc" := by
  refine ⟨by decide, by decide, by decide, by decide⟩

/-- C3 counterexample: the claim that no further `Finish` event is emitted
after the transition call is false.  For a fresh one-task session (task not
yet started, so every task is already not-running and not-just-stopped) the
first `cprogress_stillrunning` call performs the transition, returns false
and emits `Finish` — and the *second* call on the resulting state emits
`Finish` again: the source emits the event on every call on which
`is_running` is false, not only on the transition. -/
theorem C3_counterexample_second_poll_emits_again :
    ((cprogress_stillrunning (cprogress_create (chars "$t") 1)).1 = false) ∧
    ((cprogress_stillrunning (cprogress_create (chars "$t") 1)).2.2
      = [(EventType.finish, none)]) ∧
    ((cprogress_stillrunning
        ((cprogress_stillrunning (cprogress_create (chars "$t") 1)).2.1)).2.2
      = [(EventType.finish, none)]) := by
  refine ⟨by decide, by decide, by decide⟩

/-- C3 amended: `cprogress_stillrunning` emits exactly one `Finish` event
on *every* call on which it returns false — the call at which the session
transitions to not-running and every subsequent call alike — and emits no
`Finish` while the session is still running; the returned flag matches the
stored session state, which never returns to running, so later polls keep
emitting. -/
theorem C3_finish_emitted_every_nonrunning_poll (cp : CProgress) :
    ((cprogress_stillrunning cp).1 = true → (cprogress_stillrunning cp).2.2 = []) ∧
    ((cprogress_stillrunning cp).1 = false →
      (cprogress_stillrunning cp).2.2 = [(EventType.finish, none)]) ∧
    ((cprogress_stillrunning cp).2.1.isRunning = (cprogress_stillrunning cp).1) := by
  refine ⟨?_, ?_, ?_⟩
  · simp only [cprogress_stillrunning, cprogress_abort]
    split
    · intro h
      simp at h
    · intro h
      simp [h]
  · simp only [cprogress_stillrunning, cprogress_abort]
    split
    · intro h
      simp
    · intro h
      simp [h]
  · simp only [cprogress_stillrunning, cprogress_abort]

/-- C3 witness: the amended theorem applied to a concrete finished
session. -/
theorem C3_witness_fresh_session :
    (cprogress_stillrunning (cprogress_create (chars "$t") 1)).2.2
      = [(EventType.finish, none)] :=
  (C3_finish_emitted_every_nonrunning_poll
    (cprogress_create (chars "$t") 1)).2.1 (by decide)

/-- C4 counterexample: the claim that *any* format whose directives
contain two auto-span markers fails with `CPROGRESS_ERROR_INVAL` is false.
Fifteen `$t` directives fill the chunk array to its capacity
(`CPROGRESS_DISPLAYCHUNK_MAXLEN - 1 = 15`), so pushing the chunk of the
first `$=t` already fails with `CPROGRESS_ERROR_BUFFUL` — before the
second `=` marker is ever parsed — although the directives of this format
contain two auto-span markers.  Dropping one `$t` lets the scan reach the
second marker, and only then does the duplicate check fire with
`CPROGRESS_ERROR_INVAL`. -/
theorem C4_counterexample_bufful_preempts_inval :
    (cprogress_create (chars "$t$t$t$t$t$t$t$t$t$t$t$t$t$t$t$=t$=t") 1).error
      = CError.bufful ∧
    (cprogress_create (chars "$t$t$t$t$t$t$t$t$t$t$t$t$t$t$t$=t$=t") 1).error
      ≠ CError.inval ∧
    (cprogress_create (chars "$t$t$t$t$t$t$t$t$t$t$t$t$t$t$=t$=t") 1).error
      = CError.inval := by
  refine ⟨by decide, by decide, by decide⟩

/-- C4 (amended): at most one chunk of a successfully compiled format is
auto-span (the `has_autospan_element` flag bounds the count through the
whole scan, for every format string), and a format whose directives
contain two auto-span markers fails with `CPROGRESS_ERROR_INVAL` when the
scan reaches the second marker — as it does for `"$=t$=t"` — though
compilation can fail earlier with `CPROGRESS_ERROR_BUFFUL` when the chunk
capacity is exhausted before the second marker is parsed (see the
counterexample above). -/
theorem C4_at_most_one_autospan :
    (∀ (fmt : List Char) (threadCount : Nat),
      (cprogress_create fmt threadCount).error = CError.ok →
      autospanCount (cprogress_create fmt threadCount).displaychunks ≤ 1) ∧
    (cprogress_create (chars "$=t$=t") 1).error = CError.inval := by
  constructor
  · intro fmt threadCount h
    simp only [cprogress_create]
    split
    · simp [autospanCount]
    · next res hres =>
      split
      · simp [autospanCount]
      · have hinv := createLoop_auto (fmt.length + 1) fmt (Char.ofNat 0) [] [] false
          { length := 0, size := fmt.length } hres (by simp [autospanCount])
        exact le_trans hinv (by split <;> omega)
  · decide

/-- C4 witness: the invariant applied to the concretely compiled format
`"$=t"`. -/
theorem C4_witness_single_autospan :
    autospanCount (cprogress_create (chars "$=t") 1).displaychunks ≤ 1 :=
  C4_at_most_one_autospan.1 (chars "$=t") 1 (by decide)

/-- C5: `cprogress_threadinfo_updatepercentage` is a no-op unless the task
is running; when running it stores the value clamped to `[0, 100]`, and
when the clamped value reaches 100 (exactly when the input is at least
100) it additionally takes the abort transition — `is_running` cleared,
`is_just_stopped` set; below 100 the running state and the just-stopped
flag are untouched.  In particular 150 stores 100 and stops the task, and
-5 stores 0 and leaves it running. -/
theorem C5_updatepercentage_clamps (t : ThreadInfo) (p : Rat) :
    (t.isRunning = false → cprogress_threadinfo_updatepercentage t p = t) ∧
    (t.isRunning = true →
      (cprogress_threadinfo_updatepercentage t p).percentage
        = max 0 (min 100 p) ∧
      (100 ≤ p →
        (cprogress_threadinfo_updatepercentage t p).isRunning = false ∧
        (cprogress_threadinfo_updatepercentage t p).isJustStopped = true) ∧
      (p < 100 →
        (cprogress_threadinfo_updatepercentage t p).isRunning = true ∧
        (cprogress_threadinfo_updatepercentage t p).isJustStopped
          = t.isJustStopped)) := by
  constructor
  · intro h
    simp [cprogress_threadinfo_updatepercentage, h]
  · intro h
    refine ⟨?_, ?_, ?_⟩
    · rcases le_or_lt 100 p with hp | hp
      · have h100 : ¬ (100 : Rat) < 0 := by norm_num
        simp [cprogress_threadinfo_updatepercentage, cprogress_threadinfo_abort,
          h, hp, h100, min_eq_left hp,
          max_eq_right (by norm_num : (0 : Rat) ≤ 100)]
      · rcases lt_or_le p 0 with hp0 | hp0
        · simp [cprogress_threadinfo_updatepercentage, h, not_le.mpr hp, hp0,
            min_eq_right hp.le, max_eq_left hp0.le]
        · simp [cprogress_threadinfo_updatepercentage, h, not_le.mpr hp,
            not_lt.mpr hp0, min_eq_right hp.le, max_eq_right hp0]
    · intro hp
      simp [cprogress_threadinfo_updatepercentage, cprogress_threadinfo_abort,
        h, hp]
    · intro hp
      simp [cprogress_threadinfo_updatepercentage, h, not_le.mpr hp]

/-- C5 witness: the clamping theorem applied to a running task at the
inputs 150 and -5 named by the claim. -/
theorem C5_witness_150_and_minus5 :
    (cprogress_threadinfo_updatepercentage t0spec 150).percentage = 100 ∧
    (cprogress_threadinfo_updatepercentage t0spec 150).isRunning = false ∧
    (cprogress_threadinfo_updatepercentage t0spec 150).isJustStopped = true ∧
    (cprogress_threadinfo_updatepercentage t0spec (-5)).percentage = 0 ∧
    (cprogress_threadinfo_updatepercentage t0spec (-5)).isRunning = true :=
  ⟨(((C5_updatepercentage_clamps t0spec 150).2 rfl).1).trans (by norm_num),
   ((((C5_updatepercentage_clamps t0spec 150).2 rfl).2.1 (by norm_num)).1),
   ((((C5_updatepercentage_clamps t0spec 150).2 rfl).2.1 (by norm_num)).2),
   (((C5_updatepercentage_clamps t0spec (-5)).2 rfl).1).trans (by norm_num),
   ((((C5_updatepercentage_clamps t0spec (-5)).2 rfl).2.2 (by norm_num)).1)⟩

/-- C10: `cprogress_threadinfo_start` leaves `is_just_stopped` unchanged —
it only clears the title, resets the percentage and sets `is_running` — so
starting a task that was just aborted yields `is_running` and
`is_just_stopped` both set, and on the next render tick such a task is
still rendered once as finished: `cprogress_render` emits a `ThreadFinish`
event for it. -/
theorem C10_start_preserves_just_stopped (t : ThreadInfo) :
    (cprogress_threadinfo_start t).isJustStopped = t.isJustStopped ∧
    (cprogress_threadinfo_start (cprogress_threadinfo_abort t)).isRunning
      = true ∧
    (cprogress_threadinfo_start (cprogress_threadinfo_abort t)).isJustStopped
      = true ∧
    (cprogress_render (sessionWith
        [cprogress_threadinfo_start (cprogress_threadinfo_abort t)])).2
      = [(EventType.threadFinish, some t.threadIndex)] := by
  refine ⟨rfl, rfl, rfl, ?_⟩
  simp [cprogress_render, renderStep, sessionWith, cprogress_threadinfo_start,
    cprogress_threadinfo_abort]

/-- C10 witness: the restart theorem applied to the concrete task
`t0spec`. -/
theorem C10_witness_restarted_task :
    (cprogress_render (sessionWith
        [cprogress_threadinfo_start (cprogress_threadinfo_abort t0spec)])).2
      = [(EventType.threadFinish, some 0)] :=
  (C10_start_preserves_just_stopped t0spec).2.2.2
